import Mathlib

/-!
Shallow embedding of `panel.py` from the pygame-ce-panel repository.

The module defines widgets (`Button`, `Toggle`, `Input`, generic `_Widget`)
and a `Panel` holding widgets.  Mouse positions, rectangle coordinates and
cursor indices are Python ints, modelled as `Int`; text is a Python `str`,
modelled as `List Char`; font metrics (`font.size(s)[0]`) are modelled by an
abstract width function `wfun : List Char → Nat`.  Scroll values are modelled
as `Int`.
-/

/-- Python slice `l[:i]`: a negative `i` counts from the end
(`l[:i] = l[:max(len(l)+i, 0)]`). -/
def pyTake (i : Int) (l : List Char) : List Char :=
  if 0 ≤ i then l.take i.toNat else l.take (((l.length : Int) + i).toNat)

/-- Python slice `l[i:]`: a negative `i` counts from the end. -/
def pyDrop (i : Int) (l : List Char) : List Char :=
  if 0 ≤ i then l.drop i.toNat else l.drop (((l.length : Int) + i).toNat)

/-- `pygame.math.clamp(value, lo, hi)`. -/
def pgClamp (v lo hi : Int) : Int :=
  if v < lo then lo else if hi < v then hi else v

/-- `pygame.Rect((rx, ry), (w, h)).collidepoint((px, py))`: a point on the
left/top edge is inside, a point on the right/bottom edge is not. -/
def collidepoint (rx ry : Int) (w h : Nat) (px py : Int) : Bool :=
  decide (rx ≤ px ∧ px < rx + (w : Int) ∧ ry ≤ py ∧ py < ry + (h : Int))

/-- The keyboard keys `Input.handle_event` distinguishes. -/
inductive Key where
  | h | backspace | d | delete | u | b | left | f | right | a | e | escape
  | other
deriving DecidableEq, Repr

/-- The pygame events the panel widgets react to.  `keyDown` carries whether
`event.mod & KMOD_CTRL` is set; `mouseButtonDown` carries the button index. -/
inductive Event where
  | mouseButtonDown (px py : Int) (button : Nat)
  | textInput (s : List Char)
  | keyDown (key : Key) (ctrl : Bool)
  | mouseWheel (preciseY : Int)
deriving DecidableEq, Repr

/-- State of an `Input` widget: text buffer, cursor, focus flag, the fixed
`max_chars` / `width` / `height`, anchor position `_pos`, scroll offset
`_scroll` and the bounding rectangle `_rect` position (its size is
`(width, height)`). -/
structure Input where
  text : List Char
  cursor_pos : Int
  focused : Bool
  max_chars : Nat
  width : Nat
  height : Nat
  pos_x : Int
  pos_y : Int
  scroll : Int
  rect_x : Int
  rect_y : Int
deriving DecidableEq, Repr

/-- The `Input.text` property setter: truncate to `max_chars`, then clamp the
cursor with `min(cursor, len(value))` — `value` untruncated. -/
def Input.set_text (st : Input) (value : List Char) : Input :=
  { st with text := value.take st.max_chars,
            cursor_pos := min st.cursor_pos (value.length : Int) }

/-- The `Input.cursor_pos` property setter.  As written in the source it
clamps the CURRENT `_cursor_pos`, not `value`. -/
def Input.set_cursor_pos (st : Input) (value : Int) : Input :=
  { st with cursor_pos := pgClamp st.cursor_pos 0 (st.text.length : Int) }

/-- `Input(pos, width, max_chars, font)`: the constructor (`fontHeight`
stands for `font.get_height()`). -/
def Input.make (pos_x pos_y : Int) (width max_chars fontHeight : Nat) : Input :=
  Input.set_text
    { text := [], cursor_pos := 0, focused := false, max_chars := max_chars,
      width := width, height := fontHeight, pos_x := pos_x, pos_y := pos_y,
      scroll := 0, rect_x := pos_x, rect_y := pos_y }
    []

/-- The cursor-placement loop of `Input.handle_event` on a mouse click:
`for dex in range(len(text)+1): ... else: cursor = len(text)`, with `old` the
previously computed width and `rem` the remaining iterations
(`rem = len(text) + 1 - dex`).  `x < (width+old)/2` (exact float division of
ints) is transcribed as `2*x < width + old`. -/
def clickAux (wfun : List Char → Nat) (text : List Char) (x : Int) :
    Nat → Int → Nat → Int
  | _dex, _old, 0 => (text.length : Int)
  | dex, old, rem + 1 =>
    let width : Int := (wfun (text.take dex) : Int)
    if old ≤ x ∧ x < width then
      (dex : Int) - (if 2 * x < width + old then 1 else 0)
    else
      clickAux wfun text x (dex + 1) width rem

/-- Cursor position computed from a click at x-offset `x` from the field's
left edge. -/
def cursorFromClick (wfun : List Char → Nat) (text : List Char) (x : Int) : Int :=
  clickAux wfun text x 0 0 (text.length + 1)

/-- The `KEYDOWN` part of `Input.handle_event` (reached only when focused).
`length` is captured before any mutation, as in the source; the
backspace test is a separate `if`, the rest an `elif` chain. -/
def Input.handle_keydown (st : Input) (key : Key) (ctrl : Bool) : Input :=
  let length : Int := (st.text.length : Int)
  let st1 :=
    if (key = Key.h ∧ ctrl = true) ∨ key = Key.backspace then
      let c := st.cursor_pos
      let t0 := pyTake (c - 1) st.text
      if c < length then
        Input.set_text { st with cursor_pos := max (c - 1) 0 }
          (t0 ++ pyDrop c st.text)
      else
        Input.set_text st t0
    else st
  if (key = Key.d ∧ ctrl = true) ∨ key = Key.delete then
    let c := st1.cursor_pos
    let t0 := pyTake c st1.text
    Input.set_text st1
      (if c < length - 1 then t0 ++ pyDrop (c + 1) st1.text else t0)
  else if key = Key.u ∧ ctrl = true then
    let st2 := Input.set_text st1 (pyDrop st1.cursor_pos st1.text)
    { st2 with cursor_pos := 0 }
  else if (key = Key.b ∧ ctrl = true) ∨ key = Key.left then
    { st1 with cursor_pos := max (st1.cursor_pos - 1) 0 }
  else if (key = Key.f ∧ ctrl = true) ∨ key = Key.right then
    { st1 with cursor_pos := min (st1.cursor_pos + 1) length }
  else if key = Key.a ∧ ctrl = true then
    { st1 with cursor_pos := 0 }
  else if key = Key.e ∧ ctrl = true then
    { st1 with cursor_pos := (st1.text.length : Int) }
  else if key = Key.escape then
    { st1 with focused := false }
  else st1

/-- `Input.handle_event`.  On `MOUSEBUTTONDOWN` the cursor is recomputed when
the click collides with `_rect` and `_focused` is set to the collision result;
`TEXTINPUT` and `KEYDOWN` are processed only while focused. -/
def Input.handle_event (wfun : List Char → Nat) (st : Input) (ev : Event) :
    Input :=
  match ev with
  | Event.mouseButtonDown px py _button =>
    let collision := collidepoint st.rect_x st.rect_y st.width st.height px py
    let st1 :=
      if collision then
        { st with cursor_pos := cursorFromClick wfun st.text (px - st.pos_x) }
      else st
    { st1 with focused := collision }
  | Event.textInput s =>
    if st.focused then
      let length : Int := (st.text.length : Int)
      let c := st.cursor_pos
      let t := pyTake c st.text ++ s ++
        (if c < length then pyDrop c st.text else [])
      let st1 := Input.set_text st t
      { st1 with cursor_pos := min (st1.cursor_pos + 1) (st.max_chars : Int) }
    else st
  | Event.keyDown key ctrl =>
    if st.focused then st.handle_keydown key ctrl else st
  | Event.mouseWheel _ => st

/-- The Input invariant: `0 ≤ cursor ≤ len(text) ≤ max_chars`. -/
def Input.Inv (st : Input) : Prop :=
  0 ≤ st.cursor_pos ∧ st.cursor_pos ≤ (st.text.length : Int) ∧
    st.text.length ≤ st.max_chars

/-- An edit operation on an Input: a handled pygame event or an assignment to
the `text` property. -/
inductive Op where
  | event (e : Event)
  | assignText (s : List Char)
deriving DecidableEq, Repr

/-- Well-formedness of an operation as the environment delivers it: pygame
never sends a `TEXTINPUT` event with empty `event.text`. -/
def Op.Good : Op → Prop
  | Op.event (Event.textInput s) => s ≠ []
  | _ => True

/-- Apply one operation to an Input. -/
def Input.applyOp (wfun : List Char → Nat) (st : Input) : Op → Input
  | Op.event e => st.handle_event wfun e
  | Op.assignText s => st.set_text s

/-- A generic `_Widget` as the `Panel` sees it: anchor position `_pos`,
scroll offset `_scroll`, bounding-rect position `_rect.topleft`. -/
structure Widget where
  pos_x : Int
  pos_y : Int
  scroll : Int
  rect_x : Int
  rect_y : Int
deriving DecidableEq, Repr

/-- The `_Widget.scroll` property setter: store the value and move the
bounding rect to `_pos[1] + value`. -/
def Widget.set_scroll (wg : Widget) (value : Int) : Widget :=
  { wg with scroll := value, rect_y := wg.pos_y + value }

/-- A `Panel`: owned widgets, current scroll, minimum scroll. -/
structure Panel where
  widgets : List Widget
  scroll : Int
  min_scroll : Int
deriving DecidableEq, Repr

/-- The `Panel.scroll` property setter: clamp into `[min_scroll, 0]` and
propagate to every owned widget. -/
def Panel.set_scroll (p : Panel) (value : Int) : Panel :=
  let s := pgClamp value p.min_scroll 0
  { p with scroll := s, widgets := p.widgets.map (fun wg => wg.set_scroll s) }

/-- The `Panel.widgets` property setter: replace the collection, touching
nothing else. -/
def Panel.set_widgets (p : Panel) (value : List Widget) : Panel :=
  { p with widgets := value }

/-- `Panel.handle_event`: widgets see the event first (no widget's
`handle_event` modifies its own `_pos`, `_scroll` or `_rect`, so the `Widget`
projection is unchanged), then a `MOUSEWHEEL` event adds
`event.precise_y * 10` through the `scroll` setter. -/
def Panel.handle_event (p : Panel) (ev : Event) : Panel :=
  match ev with
  | Event.mouseWheel d => p.set_scroll (p.scroll + d * 10)
  | _ => p

/-- A `Button`'s geometry (its `_rect` from the rendered text size, shifted
by scroll). -/
structure ButtonW where
  pos_x : Int
  pos_y : Int
  scroll : Int
  rect_x : Int
  rect_y : Int
  rect_w : Nat
  rect_h : Nat
deriving DecidableEq, Repr

/-- How many times `Button.handle_event` invokes `self._func()` on an event:
once when the event is a `MOUSEBUTTONDOWN` colliding with `_rect`, else not
at all (the button's own state never changes). -/
def ButtonW.callsOn (b : ButtonW) (ev : Event) : Nat :=
  match ev with
  | Event.mouseButtonDown px py _button =>
    if collidepoint b.rect_x b.rect_y b.rect_w b.rect_h px py then 1 else 0
  | _ => 0

/-- A `Toggle`: its boolean `_state` plus geometry. -/
structure ToggleW where
  state : Bool
  rect_x : Int
  rect_y : Int
  rect_w : Nat
  rect_h : Nat
deriving DecidableEq, Repr

/-- `Toggle.handle_event`: a colliding `MOUSEBUTTONDOWN` flips `_state`. -/
def ToggleW.handle_event (t : ToggleW) (ev : Event) : ToggleW :=
  match ev with
  | Event.mouseButtonDown px py _button =>
    if collidepoint t.rect_x t.rect_y t.rect_w t.rect_h px py then
      { t with state := !t.state }
    else t
  | _ => t

/-- A monospace font-width function (7 pixels per character), used for
concrete evaluations. -/
def sampleW : List Char → Nat := fun s => 7 * s.length

/-- A focused 10-char Input holding "hello" with the cursor at 0. -/
def sampleHello : Input :=
  { text := ['h', 'e', 'l', 'l', 'o'], cursor_pos := 0, focused := true,
    max_chars := 10, width := 100, height := 12, pos_x := 0, pos_y := 0,
    scroll := 0, rect_x := 0, rect_y := 0 }

/-- The same Input holding "abc". -/
def sampleAbc : Input := { sampleHello with text := ['a', 'b', 'c'] }

/-- The same Input holding the empty string. -/
def sampleEmpty : Input := { sampleHello with text := [] }

/-- A concrete widget anchored at (1, 2). -/
def sampleWidget : Widget :=
  { pos_x := 1, pos_y := 2, scroll := 0, rect_x := 1, rect_y := 2 }

/-- A concrete panel owning `sampleWidget` with `min_scroll = -100`. -/
def samplePanel : Panel :=
  { widgets := [sampleWidget], scroll := 0, min_scroll := -100 }

/-- A concrete button with a 30x10 rect at the origin. -/
def sampleButton : ButtonW :=
  { pos_x := 0, pos_y := 0, scroll := 0, rect_x := 0, rect_y := 0,
    rect_w := 30, rect_h := 10 }

/-- A concrete toggle, off, with a 30x10 rect at the origin. -/
def sampleToggle : ToggleW :=
  { state := false, rect_x := 0, rect_y := 0, rect_w := 30, rect_h := 10 }

/-- The sample Input holding "ab". -/
def sampleAb : Input := { sampleHello with text := ['a', 'b'] }

/-- C2: on a focused Input with `cursor_pos = 0` the backspace branch
computes `text[:-1] + text` (a Python negative slice), so the text is NOT
left unchanged: "hello" becomes "hellhello" (the claim requires the text to
stay "hello").  The cursor does stay at 0. -/
theorem backspace_at_zero_changes_text :
    (sampleHello.handle_event sampleW (Event.keyDown Key.backspace false)).text
        = ['h', 'e', 'l', 'l', 'h', 'e', 'l', 'l', 'o'] ∧
    (sampleHello.handle_event sampleW
        (Event.keyDown Key.backspace false)).text ≠ sampleHello.text ∧
    (sampleHello.handle_event sampleW
        (Event.keyDown Key.backspace false)).cursor_pos = 0 ∧
    sampleHello.cursor_pos = 0 ∧ sampleHello.focused = true := by
  decide

/-- C3 counterexample: a focused empty Input receiving `TEXTINPUT` "ab"
ends with the cursor at 1, not advanced by the inserted length 2 as the
claim states. -/
theorem textinput_two_chars_cursor_one :
    (sampleEmpty.handle_event sampleW (Event.textInput ['a', 'b'])).text
        = ['a', 'b'] ∧
    (sampleEmpty.handle_event sampleW (Event.textInput ['a', 'b'])).cursor_pos
        = 1 ∧
    (sampleEmpty.handle_event sampleW (Event.textInput ['a', 'b'])).cursor_pos
        ≠ sampleEmpty.cursor_pos + 2 := by
  decide

/-- C3 (amended): a text-input event on a focused Input (satisfying the
invariant) inserts `s` at the cursor, truncates the result to `max_chars`,
and advances the cursor by exactly ONE (capped at `max_chars`), whatever the
length of `s`. -/
theorem textinput_inserts_cursor_advances_one (wfun : List Char → Nat)
    (st : Input) (s : List Char) (hInv : st.Inv) (hfoc : st.focused = true) :
    (st.handle_event wfun (Event.textInput s)).text
      = (st.text.take st.cursor_pos.toNat ++ s ++
          st.text.drop st.cursor_pos.toNat).take st.max_chars ∧
    (st.handle_event wfun (Event.textInput s)).cursor_pos
      = min (st.cursor_pos + 1) (st.max_chars : Int) := by
  obtain ⟨h0, hcl, hlm⟩ := hInv
  simp only [Input.handle_event, hfoc, if_true, Input.set_text]
  rw [pyTake, if_pos h0]
  constructor
  · split_ifs with hlt
    · rw [pyDrop, if_pos h0]
    · have : st.text.drop st.cursor_pos.toNat = [] := by
        apply List.drop_eq_nil_of_le
        omega
      rw [this]
  · have hlen : (st.text.take st.cursor_pos.toNat ++ s ++
        (if st.cursor_pos < (st.text.length : Int) then
          pyDrop st.cursor_pos st.text else [])).length
        ≥ st.cursor_pos.toNat := by
      split_ifs <;> simp [List.length_append] <;> omega
    congr 1
    omega

/-- C3 witness: the amended theorem applied to `sampleEmpty` and "ab". -/
theorem textinput_inserts_cursor_advances_one_witness :
    (sampleEmpty.handle_event sampleW (Event.textInput ['a', 'b'])).text
      = (sampleEmpty.text.take sampleEmpty.cursor_pos.toNat ++ ['a', 'b'] ++
          sampleEmpty.text.drop sampleEmpty.cursor_pos.toNat).take
          sampleEmpty.max_chars ∧
    (sampleEmpty.handle_event sampleW (Event.textInput ['a', 'b'])).cursor_pos
      = min (sampleEmpty.cursor_pos + 1) (sampleEmpty.max_chars : Int) :=
  textinput_inserts_cursor_advances_one sampleW sampleEmpty ['a', 'b']
    (by constructor <;> simp [sampleEmpty, sampleHello]) (by decide)

/-- C5: with `min_scroll ≤ 0`, any `scroll` assignment lands in
`[min_scroll, 0]`, and a wheel event with `precise_y = d` sets the scroll to
`clamp(scroll + d*10, min_scroll, 0)`, which also lies in `[min_scroll, 0]`. -/
theorem panel_scroll_invariant (p : Panel) (hmin : p.min_scroll ≤ 0) :
    (∀ v : Int, p.min_scroll ≤ (p.set_scroll v).scroll ∧
      (p.set_scroll v).scroll ≤ 0) ∧
    (∀ d : Int, (p.handle_event (Event.mouseWheel d)).scroll
        = pgClamp (p.scroll + d * 10) p.min_scroll 0 ∧
      p.min_scroll ≤ (p.handle_event (Event.mouseWheel d)).scroll ∧
      (p.handle_event (Event.mouseWheel d)).scroll ≤ 0) := by
  constructor
  · intro v
    simp only [Panel.set_scroll, pgClamp]
    split_ifs <;> omega
  · intro d
    refine ⟨rfl, ?_⟩
    simp only [Panel.handle_event, Panel.set_scroll, pgClamp]
    split_ifs <;> omega

/-- C5 witness: the scroll scenario from the spec, `min_scroll = -100`,
`scroll = 0`, wheel `precise_y = -3` gives scroll `-30`; a `set_scroll -200`
clamps into range. -/
theorem panel_scroll_invariant_witness :
    samplePanel.min_scroll ≤ 0 ∧
    (samplePanel.handle_event (Event.mouseWheel (-3))).scroll
      = pgClamp (samplePanel.scroll + (-3) * 10) samplePanel.min_scroll 0 ∧
    samplePanel.min_scroll ≤ (samplePanel.set_scroll (-200)).scroll ∧
    (samplePanel.set_scroll (-200)).scroll ≤ 0 :=
  ⟨by decide,
   ((panel_scroll_invariant samplePanel (by decide)).2 (-3)).1,
   ((panel_scroll_invariant samplePanel (by decide)).1 (-200)).1,
   ((panel_scroll_invariant samplePanel (by decide)).1 (-200)).2⟩

/-- C6: `set_scroll v` stores `clamp(v, min_scroll, 0)` and propagates it to
every owned widget, after which each widget's `rect_y` equals
`pos_y + scroll`. -/
theorem set_scroll_propagates (p : Panel) (v : Int) :
    (p.set_scroll v).scroll = pgClamp v p.min_scroll 0 ∧
    ∀ wg ∈ (p.set_scroll v).widgets,
      wg.scroll = pgClamp v p.min_scroll 0 ∧
      wg.rect_y = wg.pos_y + wg.scroll := by
  refine ⟨rfl, ?_⟩
  intro wg hwg
  simp only [Panel.set_scroll, List.mem_map] at hwg
  obtain ⟨wg0, -, rfl⟩ := hwg
  exact ⟨rfl, rfl⟩

/-- C6 witness: the propagation theorem applied to `samplePanel` with
`v = -30` and its single widget. -/
theorem set_scroll_propagates_witness :
    (samplePanel.set_scroll (-30)).scroll
      = pgClamp (-30) samplePanel.min_scroll 0 ∧
    (sampleWidget.set_scroll (-30)).scroll
      = pgClamp (-30) samplePanel.min_scroll 0 ∧
    (sampleWidget.set_scroll (-30)).rect_y
      = (sampleWidget.set_scroll (-30)).pos_y
        + (sampleWidget.set_scroll (-30)).scroll :=
  ⟨(set_scroll_propagates samplePanel (-30)).1,
   ((set_scroll_propagates samplePanel (-30)).2 (sampleWidget.set_scroll (-30))
      (by decide)).1,
   ((set_scroll_propagates samplePanel (-30)).2 (sampleWidget.set_scroll (-30))
      (by decide)).2⟩

/-- C7: a press-down outside the button's rect never calls the callback; a
press-down inside calls it exactly once. -/
theorem button_press_calls (b : ButtonW) (px py : Int) (btn : Nat) :
    (collidepoint b.rect_x b.rect_y b.rect_w b.rect_h px py = false →
      b.callsOn (Event.mouseButtonDown px py btn) = 0) ∧
    (collidepoint b.rect_x b.rect_y b.rect_w b.rect_h px py = true →
      b.callsOn (Event.mouseButtonDown px py btn) = 1) := by
  constructor <;> intro h <;> simp [ButtonW.callsOn, h]

/-- C7 witness: `sampleButton` at an outside point (200,200) and an inside
point (5,5). -/
theorem button_press_calls_witness :
    sampleButton.callsOn (Event.mouseButtonDown 200 200 1) = 0 ∧
    sampleButton.callsOn (Event.mouseButtonDown 5 5 1) = 1 :=
  ⟨(button_press_calls sampleButton 200 200 1).1 (by decide),
   (button_press_calls sampleButton 5 5 1).2 (by decide)⟩

/-- C9: no handler inspects the button index: for ANY button index, a
press-down inside the rect makes the Button fire once, the Toggle flip, and
the Input focus and place its cursor — identically to a primary-button
press. -/
theorem any_button_index_acts (b : ButtonW) (t : ToggleW) (inp : Input)
    (wfun : List Char → Nat) (px py : Int) (btn : Nat)
    (hb : collidepoint b.rect_x b.rect_y b.rect_w b.rect_h px py = true)
    (ht : collidepoint t.rect_x t.rect_y t.rect_w t.rect_h px py = true)
    (hi : collidepoint inp.rect_x inp.rect_y inp.width inp.height px py
      = true) :
    b.callsOn (Event.mouseButtonDown px py btn) = 1 ∧
    (t.handle_event (Event.mouseButtonDown px py btn)).state = !t.state ∧
    (inp.handle_event wfun (Event.mouseButtonDown px py btn)).focused
      = true ∧
    (inp.handle_event wfun (Event.mouseButtonDown px py btn)).cursor_pos
      = cursorFromClick wfun inp.text (px - inp.pos_x) ∧
    inp.handle_event wfun (Event.mouseButtonDown px py btn)
      = inp.handle_event wfun (Event.mouseButtonDown px py 1) := by
  refine ⟨?_, ?_, ?_, ?_, ?_⟩
  · simp [ButtonW.callsOn, hb]
  · simp [ToggleW.handle_event, ht]
  · simp [Input.handle_event, hi]
  · simp [Input.handle_event, hi]
  · rfl

/-- C9 witness: button index 3 at (5,5) on the sample widgets. -/
theorem any_button_index_acts_witness :
    sampleButton.callsOn (Event.mouseButtonDown 5 5 3) = 1 ∧
    (sampleToggle.handle_event (Event.mouseButtonDown 5 5 3)).state
      = !sampleToggle.state ∧
    (sampleHello.handle_event sampleW (Event.mouseButtonDown 5 5 3)).focused
      = true ∧
    (sampleHello.handle_event sampleW
        (Event.mouseButtonDown 5 5 3)).cursor_pos
      = cursorFromClick sampleW sampleHello.text (5 - sampleHello.pos_x) ∧
    sampleHello.handle_event sampleW (Event.mouseButtonDown 5 5 3)
      = sampleHello.handle_event sampleW (Event.mouseButtonDown 5 5 1) :=
  any_button_index_acts sampleButton sampleToggle sampleHello sampleW 5 5 3
    (by decide) (by decide) (by decide)

/-- C10: replacing the widget collection leaves the panel's scroll unchanged
and stores the new widgets exactly as given (no scroll propagation). -/
theorem set_widgets_preserves (p : Panel) (ws : List Widget) :
    (p.set_widgets ws).scroll = p.scroll ∧ (p.set_widgets ws).widgets = ws :=
  ⟨rfl, rfl⟩

/-- C8: the `cursor_pos` property setter ignores the assigned value: on an
Input holding "abc" with the cursor at 0, assigning 2 (in range, so the
claim requires the result to be 2) leaves the cursor at 0. -/
theorem cursor_pos_setter_ignores_value :
    (sampleAbc.set_cursor_pos 2).cursor_pos = 0 ∧
    pgClamp 2 0 (sampleAbc.text.length : Int) = 2 ∧
    (sampleAbc.set_cursor_pos 2).cursor_pos
      ≠ pgClamp 2 0 (sampleAbc.text.length : Int) := by
  decide

/-- Length of a Python prefix slice. -/
theorem length_pyTake (i : Int) (l : List Char) :
    (pyTake i l).length
      = if 0 ≤ i then min i.toNat l.length
        else min ((l.length : Int) + i).toNat l.length := by
  unfold pyTake
  split_ifs <;> simp [List.length_take]

/-- Length of a Python suffix slice. -/
theorem length_pyDrop (i : Int) (l : List Char) :
    (pyDrop i l).length
      = if 0 ≤ i then l.length - i.toNat
        else l.length - ((l.length : Int) + i).toNat := by
  unfold pyDrop
  split_ifs <;> simp [List.length_drop]

/-- The `text` setter yields an invariant-satisfying state whenever the
incoming cursor is in `[0, max_chars]` (the text fields are rebuilt, so no
assumption on the old text is needed). -/
theorem set_text_Inv_of (st : Input) (v : List Char) (h0 : 0 ≤ st.cursor_pos)
    (hm : st.cursor_pos ≤ (st.max_chars : Int)) : (st.set_text v).Inv := by
  simp only [Input.Inv, Input.set_text, List.length_take]
  refine ⟨by omega, by omega, by omega⟩

/-- The `text` setter preserves the Input invariant. -/
theorem set_text_Inv (st : Input) (v : List Char) (h : st.Inv) :
    (st.set_text v).Inv := by
  obtain ⟨h0, hcl, hlm⟩ := h
  exact set_text_Inv_of st v h0 (by omega)

/-- Every `KEYDOWN` branch preserves the Input invariant. -/
theorem handle_keydown_Inv (st : Input) (key : Key) (ctrl : Bool)
    (h : st.Inv) : (st.handle_keydown key ctrl).Inv := by
  obtain ⟨h0, hcl, hlm⟩ := h
  cases key <;> cases ctrl <;>
    simp only [Input.handle_keydown] <;>
    simp <;>
    first
      | exact ⟨h0, hcl, hlm⟩
      | (split_ifs <;>
          first
            | (apply set_text_Inv_of <;> (dsimp only; omega))
            | (refine ⟨?_, ?_, ?_⟩ <;>
                first
                  | (dsimp only; omega)
                  | (simp [Input.set_text, List.length_take]; omega)
                  | (simp [Input.set_text, List.length_take])))
      | (refine ⟨?_, ?_, ?_⟩ <;>
          first
            | (dsimp only; omega)
            | (simp [Input.set_text, List.length_take]; omega)
            | (simp [Input.set_text, List.length_take]))

/-- The click-placement loop stays within `[0, len(text)]` once `dex ≥ 1`. -/
theorem clickAux_bounds (wfun : List Char → Nat) (text : List Char) (x : Int) :
    ∀ rem dex old, dex + rem = text.length + 1 → 1 ≤ dex →
      0 ≤ clickAux wfun text x dex old rem ∧
        clickAux wfun text x dex old rem ≤ (text.length : Int) := by
  intro rem
  induction rem with
  | zero =>
    intro dex old hsum hdex
    simp only [clickAux]
    exact ⟨Int.natCast_nonneg _, le_rfl⟩
  | succ n ih =>
    intro dex old hsum hdex
    simp only [clickAux]
    split_ifs with hc hm
    · constructor <;> omega
    · constructor <;> omega
    · exact ih (dex + 1) _ (by omega) (by omega)

/-- With a font of empty-string width 0, the cursor computed from a click
lies in `[0, len(text)]`. -/
theorem cursorFromClick_bounds (wfun : List Char → Nat) (text : List Char)
    (x : Int) (hw : wfun [] = 0) :
    0 ≤ cursorFromClick wfun text x ∧
      cursorFromClick wfun text x ≤ (text.length : Int) := by
  have hcond : ¬((0 : Int) ≤ x ∧ x < ((wfun (List.take 0 text) : Nat) : Int)) := by
    simp only [List.take_zero, hw, Nat.cast_zero]
    omega
  unfold cursorFromClick
  simp only [clickAux]
  rw [if_neg hcond]
  exact clickAux_bounds wfun text x text.length 1 _ (by omega) (by omega)

/-- A `TEXTINPUT` event carrying at least one character preserves the Input
invariant. -/
theorem textinput_Inv (wfun : List Char → Nat) (st : Input) (s : List Char)
    (hs : s ≠ []) (h : st.Inv) :
    (st.handle_event wfun (Event.textInput s)).Inv := by
  obtain ⟨h0, hcl, hlm⟩ := h
  have hslen : 1 ≤ s.length := List.length_pos.mpr hs
  simp only [Input.handle_event]
  split_ifs with hf
  all_goals
    first
      | exact ⟨h0, hcl, hlm⟩
      | (simp only [Input.Inv, Input.set_text, List.length_take,
           List.length_append, length_pyTake, length_pyDrop]
         first
           | (split_ifs <;> refine ⟨by omega, by omega, by omega⟩)
           | refine ⟨by omega, by omega, by omega⟩)

/-- Any single handled event preserves the Input invariant, given that the
font maps the empty string to width 0 and `TEXTINPUT` events are
nonempty. -/
theorem handle_event_Inv (wfun : List Char → Nat) (hw : wfun [] = 0)
    (st : Input) (ev : Event)
    (hg : ∀ s, ev = Event.textInput s → s ≠ []) (h : st.Inv) :
    (st.handle_event wfun ev).Inv := by
  cases ev with
  | mouseButtonDown px py btn =>
    obtain ⟨h0, hcl, hlm⟩ := h
    have hb := cursorFromClick_bounds wfun st.text (px - st.pos_x) hw
    simp only [Input.handle_event]
    split_ifs with hcol
    · exact ⟨hb.1, hb.2, hlm⟩
    · exact ⟨h0, hcl, hlm⟩
  | textInput s => exact textinput_Inv wfun st s (hg s rfl) h
  | keyDown key ctrl =>
    simp only [Input.handle_event]
    split_ifs with hf
    · exact handle_keydown_Inv st key ctrl h
    · exact h
  | mouseWheel d => exact h

/-- C1: for every Input satisfying the invariant, any sequence of handled
events (clicks, text input, editing keys) and `text` assignments keeps
`0 ≤ cursor_pos ≤ len(text) ≤ max_chars`, provided the font gives the empty
string width 0 and text-input events carry at least one character (pygame
never delivers an empty `TEXTINPUT`). -/
theorem input_invariant_sequences (wfun : List Char → Nat) (hw : wfun [] = 0)
    (st : Input) (hInv : st.Inv) (ops : List Op)
    (hg : ∀ op ∈ ops, op.Good) :
    (ops.foldl (Input.applyOp wfun) st).Inv := by
  induction ops generalizing st with
  | nil => exact hInv
  | cons op rest ih =>
    rw [List.foldl_cons]
    refine ih _ ?_ ?_
    · cases op with
      | event e =>
        refine handle_event_Inv wfun hw st e ?_ hInv
        intro s hs
        have hgood := hg (Op.event e) (List.mem_cons_self _ _)
        rw [hs] at hgood
        exact hgood
      | assignText s => exact set_text_Inv st s hInv
    · intro o ho
      exact hg o (List.mem_cons_of_mem _ ho)

/-- C1 witness: a concrete sequence of a text input, a backspace, a text
assignment and a click on `sampleHello`. -/
theorem input_invariant_sequences_witness :
    (([Op.event (Event.textInput ['x']),
       Op.event (Event.keyDown Key.backspace false),
       Op.assignText ['a', 'b', 'c'],
       Op.event (Event.mouseButtonDown 3 3 1)].foldl
        (Input.applyOp sampleW) sampleHello)).Inv :=
  input_invariant_sequences sampleW rfl sampleHello
    ⟨by decide, by decide, by decide⟩ _
    (by
      intro op hop
      simp only [List.mem_cons, List.not_mem_nil, or_false] at hop
      rcases hop with h | h | h | h <;> subst h <;> simp [Op.Good])

/-- When the click offset `x` falls in the bracket
`[width(text[:i-1]), width(text[:i]))` of a monotone width function, the
scan loop resolves to `i` or `i-1` by the midpoint rule. -/
theorem clickAux_finds (wfun : List Char → Nat) (text : List Char) (x : Int)
    (i : Nat) (h1 : 1 ≤ i) (hiL : i ≤ text.length)
    (mono : ∀ a b : Nat, a ≤ b → b ≤ text.length →
      wfun (text.take a) ≤ wfun (text.take b))
    (hlo : ((wfun (text.take (i - 1)) : Nat) : Int) ≤ x)
    (hhi : x < ((wfun (text.take i) : Nat) : Int)) :
    ∀ rem dex old, dex + rem = text.length + 1 → dex ≤ i →
      (dex = 0 → old = 0) →
      (1 ≤ dex → old = ((wfun (text.take (dex - 1)) : Nat) : Int)) →
      clickAux wfun text x dex old rem
        = (i : Int) -
          (if 2 * x < ((wfun (text.take i) : Nat) : Int)
              + ((wfun (text.take (i - 1)) : Nat) : Int) then 1 else 0) := by
  intro rem
  induction rem with
  | zero =>
    intro dex old hsum hdexi _ _
    exfalso
    omega
  | succ n ih =>
    intro dex old hsum hdexi hz ho
    simp only [clickAux]
    by_cases hde : dex = i
    · subst hde
      obtain hold := ho (by omega)
      subst hold
      rw [if_pos ⟨hlo, hhi⟩]
    · have hlt : dex < i := by omega
      rw [if_neg]
      · exact ih (dex + 1) _ (by omega) (by omega)
          (fun hcon => absurd hcon (by omega)) (fun _ => by simp)
      · have hmono := mono dex (i - 1) (by omega) (by omega)
        intro hcon
        have hcast : ((wfun (text.take dex) : Nat) : Int)
            ≤ ((wfun (text.take (i - 1)) : Nat) : Int) := by exact_mod_cast hmono
        obtain ⟨-, h2⟩ := hcon
        omega

/-- When the click offset is at or beyond every prefix width, the scan loop
falls through to `len(text)`. -/
theorem clickAux_past (wfun : List Char → Nat) (text : List Char) (x : Int)
    (hall : ∀ j, j ≤ text.length → ((wfun (text.take j) : Nat) : Int) ≤ x) :
    ∀ rem dex old, dex + rem = text.length + 1 →
      clickAux wfun text x dex old rem = (text.length : Int) := by
  intro rem
  induction rem with
  | zero => intro dex old _; rfl
  | succ n ih =>
    intro dex old hsum
    simp only [clickAux]
    rw [if_neg]
    · exact ih (dex + 1) _ (by omega)
    · have := hall dex (by omega)
      intro hcon
      obtain ⟨-, h2⟩ := hcon
      omega

/-- C4: a press-down inside the Input's rect places the cursor by the
midpoint rule.  With `x` the click offset from the field's left edge
(`_rect.x = _pos.x`) and a monotone prefix-width function: if `x` lies in
the bracket `[w(i-1), w(i))` the cursor lands on `i` when `x` is at or past
the bracket's midpoint and on `i-1` otherwise; if `x` is at or beyond the
full rendered width, the cursor lands on `len(text)`. -/
theorem click_places_cursor_midpoint (wfun : List Char → Nat) (st : Input)
    (px py : Int) (btn : Nat) (hrect : st.rect_x = st.pos_x)
    (hcol : collidepoint st.rect_x st.rect_y st.width st.height px py = true)
    (mono : ∀ a b : Nat, a ≤ b → b ≤ st.text.length →
      wfun (st.text.take a) ≤ wfun (st.text.take b)) :
    (∀ i : Nat, 1 ≤ i → i ≤ st.text.length →
      ((wfun (st.text.take (i - 1)) : Nat) : Int) ≤ px - st.pos_x →
      px - st.pos_x < ((wfun (st.text.take i) : Nat) : Int) →
      (st.handle_event wfun (Event.mouseButtonDown px py btn)).cursor_pos
        = if ((wfun (st.text.take (i - 1)) : Nat) : Int)
              + ((wfun (st.text.take i) : Nat) : Int) ≤ 2 * (px - st.pos_x)
          then (i : Int) else (i : Int) - 1) ∧
    (((wfun st.text : Nat) : Int) ≤ px - st.pos_x →
      (st.handle_event wfun (Event.mouseButtonDown px py btn)).cursor_pos
        = (st.text.length : Int)) := by
  have hred : (st.handle_event wfun (Event.mouseButtonDown px py btn)).cursor_pos
      = cursorFromClick wfun st.text (px - st.pos_x) := by
    simp [Input.handle_event, hcol]
  constructor
  · intro i hi1 hiL hlo hhi
    rw [hred]
    unfold cursorFromClick
    rw [clickAux_finds wfun st.text (px - st.pos_x) i hi1 hiL mono hlo hhi
        (st.text.length + 1) 0 0 (by omega) (by omega) (fun _ => rfl)
        (fun hcon => absurd hcon (by omega))]
    split_ifs <;> omega
  · intro hfull
    rw [hred]
    unfold cursorFromClick
    refine clickAux_past wfun st.text (px - st.pos_x) ?_ (st.text.length + 1)
      0 0 (by omega)
    intro j hj
    have hmono := mono j st.text.length hj le_rfl
    have hcast : ((wfun (st.text.take j) : Nat) : Int)
        ≤ ((wfun (st.text.take st.text.length) : Nat) : Int) := by
      exact_mod_cast hmono
    rw [List.take_length] at hcast
    omega

/-- C4 witness: monospace width 7, text "ab", click at x = 10: the bracket
is `[7, 14)` for `i = 2`, `20 < 21` is before the midpoint, so the cursor
lands on 1. -/
theorem click_places_cursor_midpoint_witness :
    (sampleAb.handle_event sampleW (Event.mouseButtonDown 10 5 1)).cursor_pos
      = 1 := by
  have h := (click_places_cursor_midpoint sampleW sampleAb 10 5 1 rfl
      (by decide)
      (by
        intro a b hab hb
        simp only [sampleW, sampleAb, sampleHello, List.length_take]
        simp only [sampleAb, sampleHello] at hb
        omega)).1 2 (by decide) (by decide) (by decide) (by decide)
  rw [if_neg (by decide)] at h
  omega
